import Mathlib

/-!
Verification of the conversation-persistence core of the chat repository
(`src/Fundamentals_level_3/chat.py` and `src/Fundamentals_level_3/chat_2.py`).

The embedding models:
- `Message` — one chat message (`role`, `content`), as appended by the loops
  (only `role` and `content` are sent and persisted).
- the on-disk store — a map from file path to stored file contents, where a
  stored file either parses to a `ConversationRecord` or is corrupt;
- `save_conversation` / `load_conversation` / `list_conversations` from
  `chat_2.py`;
- the chat loops of both files as step functions on session state, with the
  Completion Client call modelled as an `Option String` result (some reply,
  or failure).
-/

inductive Role where
  | user
  | assistant
deriving DecidableEq, Repr

structure Message where
  role : Role
  content : String
deriving DecidableEq, Repr

/-- The JSON record written by `save_conversation` (chat_2.py lines 38-44).
`created_at` is `Option String` because `metadata.get("created_at")` can be
`None`, which is serialized as JSON `null`. -/
structure ConversationRecord where
  conversation_id : String
  created_at : Option String
  last_updated : String
  message_count : Nat
  messages : List Message
deriving DecidableEq, Repr

/-- A file on disk: either it parses to a record, or it is structurally
corrupt (json.load or the subsequent field access raises). -/
inductive StoredFile where
  | parsed (r : ConversationRecord)
  | corrupt
deriving DecidableEq, Repr

/-- The conversations directory: a map from file path to file contents
(`none` = no such file). -/
abbrev Store : Type := String → Option StoredFile

/-- The `metadata` dict passed to `save_conversation`: an association list of
string keys; `none` models Python `None`. -/
abbrev Metadata : Type := List (String × String)

/-- File path derived from the conversation id
(chat_2.py lines 47 and 56: both save and load derive the same path). -/
def conversationFilename (conversation_id : String) : String :=
  "conversations/conversation_" ++ conversation_id ++ ".json"

/-- The `created_at` field written by save (chat_2.py line 40):
`metadata.get("created_at") if metadata else datetime.now().isoformat()`.
A Python dict is falsy when it is `None` or empty, so the current time is
used exactly when `metadata` is `none` or the empty dict; otherwise the
result is the dict lookup, which may itself be `none` (JSON null). -/
def createdAtField (metadata : Option Metadata) (now : String) : Option String :=
  match metadata with
  | some (p :: ps) => List.lookup "created_at" (p :: ps)
  | some [] => some now
  | none => some now

/-- The full record assembled by `save_conversation` (chat_2.py lines 38-44). -/
def savedRecord (conversation_id : String) (messages : List Message)
    (metadata : Option Metadata) (now : String) : ConversationRecord :=
  { conversation_id := conversation_id
  , created_at := createdAtField metadata now
  , last_updated := now
  , message_count := messages.length
  , messages := messages }

/-- `save_conversation` (chat_2.py lines 34-52): writes the full snapshot to
the path derived from the id, overwriting whatever was there, and returns the
new store together with the filename (the function's return value). -/
def save_conversation (store : Store) (conversation_id : String)
    (messages : List Message) (metadata : Option Metadata) (now : String) :
    Store × String :=
  (fun path =>
      if path = conversationFilename conversation_id then
        some (StoredFile.parsed (savedRecord conversation_id messages metadata now))
      else store path,
   conversationFilename conversation_id)

/-- Result of `load_conversation` (chat_2.py lines 54-62): a missing file is
caught (`except FileNotFoundError: return None, None`), modelled as
`notFound`; a present but unparseable file raises out of the function,
modelled as `corruptRecord`; success returns `(data["messages"], data)`. -/
inductive LoadResult where
  | ok (messages : List Message) (data : ConversationRecord)
  | notFound
  | corruptRecord
deriving DecidableEq, Repr

/-- `load_conversation` (chat_2.py lines 54-62). -/
def load_conversation (store : Store) (conversation_id : String) : LoadResult :=
  match store (conversationFilename conversation_id) with
  | none => LoadResult.notFound
  | some StoredFile.corrupt => LoadResult.corruptRecord
  | some (StoredFile.parsed r) => LoadResult.ok r.messages r

/-- One entry of the list built by `list_conversations`
(chat_2.py lines 74-79). -/
structure Summary where
  id : String
  created : Option String
  updated : String
  messages : Nat
deriving DecidableEq, Repr

/-- Reading one file inside the `for` loop of `list_conversations`:
a corrupt file hits `except: continue` and contributes nothing. -/
def summaryOf : StoredFile → Option Summary
  | StoredFile.parsed r =>
      some { id := r.conversation_id
           , created := r.created_at
           , updated := r.last_updated
           , messages := r.message_count }
  | StoredFile.corrupt => none

/-- Insertion step of a stable descending sort by `updated`, matching
Python's stable `list.sort(key=..., reverse=True)`: an element is inserted
before the first element whose key is ≤ its own, so among equal keys the
earlier element stays first. -/
def insertDesc (s : Summary) : List Summary → List Summary
  | [] => [s]
  | t :: ts => if t.updated ≤ s.updated then s :: t :: ts else t :: insertDesc s ts

/-- Stable descending sort by `updated` (chat_2.py line 84). -/
def sortDesc : List Summary → List Summary
  | [] => []
  | s :: ss => insertDesc s (sortDesc ss)

/-- `list_conversations` (chat_2.py lines 64-85): the glob enumeration is
modelled as the input list of file contents in enumeration order; corrupt
files are skipped, the rest summarized, and the result sorted by
`last_updated`, most recent first. -/
def list_conversations (files : List StoredFile) : List Summary :=
  sortDesc (files.filterMap summaryOf)

/-- The entries printed by `display_conversation_menu`
(chat_2.py line 98: `conversations[:5]`). -/
def menuShown (conversations : List Summary) : List Summary :=
  conversations.take 5

/-- The "... and N more conversations" count
(chat_2.py lines 107-108: printed only when more than 5 exist). -/
def menuMore (conversations : List Summary) : Nat :=
  if conversations.length > 5 then conversations.length - 5 else 0

/-- The error-recovery branch shared by both files
(chat_2.py lines 260-261, chat.py lines 104-105):
`if messages and messages[-1]["role"] == "user": messages.pop()`. -/
def rollbackFailedTurn (messages : List Message) : List Message :=
  match messages.getLast? with
  | some m => if m.role = Role.user then messages.dropLast else messages
  | none => messages

/-- Python's `str.strip()`: remove leading and trailing whitespace. Written
at the character-list level so that it evaluates on literals. -/
def stripString (s : String) : String :=
  String.mk (((s.data.dropWhile Char.isWhitespace).reverse.dropWhile
    Char.isWhitespace).reverse)

/-- Python's `str.lower()` on the ASCII command tokens the loops compare
against. Written at the character-list level so that it evaluates. -/
def lowerString (s : String) : String :=
  String.mk (s.data.map Char.toLower)

/-- Session state of the chat_2.py loop: the conversation id, the in-memory
message log, the metadata captured at selection time, and the store. -/
structure SessionState where
  conversation_id : String
  messages : List Message
  metadata : Option Metadata
  store : Store

/-- How `chat_loop` in chat_2.py classifies one line of input
(lines 187-204, in source order: exit, history, empty, otherwise a turn). -/
inductive Command2 where
  | exitCmd
  | historyCmd
  | skip
  | turn
deriving DecidableEq, Repr

/-- Input classification of chat_2.py's loop. Note: there is no `clear`
command in this loop. -/
def parseCommand2 (raw : String) : Command2 :=
  let s := stripString raw
  if lowerString s = "exit" then Command2.exitCmd
  else if lowerString s = "history" then Command2.historyCmd
  else if s = "" then Command2.skip
  else Command2.turn

/-- The ProcessTurn sub-machine of chat_2.py (lines 207-263): append the user
message, call the Completion Client on the whole log; on success append the
assistant reply and save; on failure run the rollback branch and do not save.
`input` is the already-stripped user input, `result` the client outcome. -/
def chat2Turn (s : SessionState) (input : String) (now : String)
    (result : Option String) : SessionState :=
  let logWithUser := s.messages ++ [{ role := Role.user, content := input }]
  match result with
  | some reply =>
      let log2 := logWithUser ++ [{ role := Role.assistant, content := reply }]
      { s with
        messages := log2
        store := (save_conversation s.store s.conversation_id log2 s.metadata now).1 }
  | none =>
      { s with messages := rollbackFailedTurn logWithUser }

/-- One iteration of chat_2.py's `while True` loop: commands leave the state
unchanged (exit breaks, history prints, empty continues); anything else is a
turn. -/
def chat2Step (s : SessionState) (raw : String) (now : String)
    (result : Option String) : SessionState :=
  match parseCommand2 raw with
  | Command2.turn => chat2Turn s (stripString raw) now result
  | _ => s

/-- How `main` in chat.py classifies one line of input
(lines 44-55: exit/quit, clear, empty, otherwise a turn). -/
inductive Command1 where
  | exitCmd
  | clearCmd
  | skip
  | turn
deriving DecidableEq, Repr

/-- Input classification of chat.py's loop, which does recognize `clear`. -/
def parseCommand1 (raw : String) : Command1 :=
  let s := stripString raw
  if lowerString s = "exit" ∨ lowerString s = "quit" then Command1.exitCmd
  else if lowerString s = "clear" then Command1.clearCmd
  else if s = "" then Command1.skip
  else Command1.turn

/-- One iteration of chat.py's loop (lines 39-105). chat.py has no store and
never performs any persistence; its state is just the in-memory log.
`clear` resets the log to `[]` (line 50). -/
def chat1Step (messages : List Message) (raw : String)
    (result : Option String) : List Message :=
  match parseCommand1 raw with
  | Command1.exitCmd => messages
  | Command1.clearCmd => []
  | Command1.skip => messages
  | Command1.turn =>
      let logWithUser := messages ++ [{ role := Role.user, content := stripString raw }]
      match result with
      | some reply => logWithUser ++ [{ role := Role.assistant, content := reply }]
      | none => rollbackFailedTurn logWithUser

/-! Helper lemmas -/

/-- Popping the just-appended user message restores the log exactly. -/
theorem rollback_append_user (l : List Message) (c : String) :
    rollbackFailedTurn (l ++ [{ role := Role.user, content := c }]) = l := by
  unfold rollbackFailedTurn
  rw [List.getLast?_concat]
  simp

/-- Inserting into a list is a permutation of consing onto it. -/
theorem insertDesc_perm (s : Summary) (l : List Summary) :
    (insertDesc s l).Perm (s :: l) := by
  induction l with
  | nil => exact List.Perm.refl _
  | cons t ts ih =>
    unfold insertDesc
    by_cases h : t.updated ≤ s.updated
    · rw [if_pos h]
    · rw [if_neg h]
      exact (List.Perm.cons t ih).trans (List.Perm.swap s t ts)

/-- The stable sort is a permutation of its input. -/
theorem sortDesc_perm (l : List Summary) : (sortDesc l).Perm l := by
  induction l with
  | nil => exact List.Perm.refl _
  | cons s ss ih =>
    exact (insertDesc_perm s (sortDesc ss)).trans (List.Perm.cons s ih)

/-- Inserting preserves the descending-by-`updated` pairwise order. -/
theorem insertDesc_pairwise (s : Summary) (l : List Summary)
    (h : List.Pairwise (fun a b : Summary => b.updated ≤ a.updated) l) :
    List.Pairwise (fun a b : Summary => b.updated ≤ a.updated) (insertDesc s l) := by
  induction l with
  | nil => simp [insertDesc]
  | cons t ts ih =>
    obtain ⟨ht, hts⟩ := List.pairwise_cons.mp h
    unfold insertDesc
    by_cases hc : t.updated ≤ s.updated
    · rw [if_pos hc]
      refine List.pairwise_cons.mpr ⟨?_, h⟩
      intro b hb
      rcases List.mem_cons.mp hb with hb | hb
      · exact hb ▸ hc
      · exact le_trans (ht b hb) hc
    · rw [if_neg hc]
      refine List.pairwise_cons.mpr ⟨?_, ih hts⟩
      intro b hb
      have hb2 : b ∈ s :: ts := (insertDesc_perm s ts).subset hb
      rcases List.mem_cons.mp hb2 with hb2 | hb2
      · exact hb2 ▸ le_of_not_le hc
      · exact ht b hb2

/-- The sort output is pairwise descending by `updated`. -/
theorem sortDesc_pairwise (l : List Summary) :
    List.Pairwise (fun a b : Summary => b.updated ≤ a.updated) (sortDesc l) := by
  induction l with
  | nil => exact List.Pairwise.nil
  | cons s ss ih => exact insertDesc_pairwise s (sortDesc ss) ih

/-- Stability of the insertion step: restricted to any one `updated` value,
inserting agrees with consing, because the elements passed over on the way
to the insertion point all have a strictly greater key. -/
theorem insertDesc_filter (s : Summary) (l : List Summary) (k : String) :
    (insertDesc s l).filter (fun t => t.updated == k)
      = (s :: l).filter (fun t => t.updated == k) := by
  induction l with
  | nil => rfl
  | cons t ts ih =>
    unfold insertDesc
    by_cases hc : t.updated ≤ s.updated
    · rw [if_pos hc]
    · rw [if_neg hc]
      have hlt : s.updated < t.updated := lt_of_not_le hc
      by_cases htk : t.updated = k
      · have hsk : (s.updated == k) = false := by
          refine beq_eq_false_iff_ne.mpr ?_
          intro hs
          exact absurd (hs.trans htk.symm ▸ hlt) (lt_irrefl t.updated)
        simp [List.filter_cons, htk, hsk, ih]
      · have htk2 : (t.updated == k) = false := beq_eq_false_iff_ne.mpr htk
        simp [List.filter_cons, htk2, ih]

/-- Stability of the sort: restricted to any one `updated` value, sorting is
the identity, i.e. ties keep the enumeration order. -/
theorem sortDesc_filter (l : List Summary) (k : String) :
    (sortDesc l).filter (fun t => t.updated == k)
      = l.filter (fun t => t.updated == k) := by
  induction l with
  | nil => rfl
  | cons s ss ih =>
    show (insertDesc s (sortDesc ss)).filter _ = _
    rw [insertDesc_filter]
    simp only [List.filter_cons, ih]

/-! Claim theorems -/

/-- Claim C1: in every turn where the Completion Client call fails, the
error-recovery path removes the user message appended at the start of the
turn, leaving the log element-for-element identical to the log before the
turn, and no save occurs (the store — and the whole session state — is
unchanged). The second conjunct is the same rollback branch as it appears in
chat.py. -/
theorem failed_turn_rolls_back_and_does_not_save :
    (∀ (s : SessionState) (input now : String), chat2Turn s input now none = s) ∧
    (∀ (messages : List Message) (c : String),
      rollbackFailedTurn (messages ++ [{ role := Role.user, content := c }]) = messages) := by
  constructor
  · intro s input now
    simp [chat2Turn, rollback_append_user]
  · intro messages c
    exact rollback_append_user messages c

/-- Claim C3: loading by the id of a just-saved conversation returns exactly
the record save wrote — same id, same created_at and last_updated
timestamps, same ordered message sequence — and the location save returns is
the very path load reads for that id. -/
theorem load_after_save_roundtrip (store : Store) (conversation_id : String)
    (messages : List Message) (metadata : Option Metadata) (now : String) :
    load_conversation (save_conversation store conversation_id messages metadata now).1
        conversation_id
      = LoadResult.ok messages (savedRecord conversation_id messages metadata now) ∧
    (save_conversation store conversation_id messages metadata now).2
      = conversationFilename conversation_id ∧
    (savedRecord conversation_id messages metadata now).conversation_id
      = conversation_id ∧
    (savedRecord conversation_id messages metadata now).messages = messages := by
  refine ⟨?_, rfl, rfl, rfl⟩
  simp [load_conversation, save_conversation, savedRecord]

/-- A store with no files at all. -/
def emptyStore : Store := fun _ => none

/-- A store holding exactly one corrupt record, for conversation id `bad1`. -/
def corruptStore : Store :=
  fun path =>
    if path = conversationFilename "bad1" then some StoredFile.corrupt else none

/-- Claim C5: load on an id with no stored record yields `notFound`, while a
record that exists but fails to parse yields `corruptRecord`, and the two
outcomes are distinct. -/
theorem load_notFound_vs_corrupt (store : Store) (conversation_id : String) :
    (store (conversationFilename conversation_id) = none →
      load_conversation store conversation_id = LoadResult.notFound) ∧
    (store (conversationFilename conversation_id) = some StoredFile.corrupt →
      load_conversation store conversation_id = LoadResult.corruptRecord) ∧
    LoadResult.corruptRecord ≠ LoadResult.notFound := by
  refine ⟨?_, ?_, by decide⟩ <;> intro h <;> simp [load_conversation, h]

/-- Witness for C5 at two concrete stores. -/
theorem load_notFound_vs_corrupt_witness :
    load_conversation emptyStore "gone" = LoadResult.notFound ∧
    load_conversation corruptStore "bad1" = LoadResult.corruptRecord :=
  ⟨(load_notFound_vs_corrupt emptyStore "gone").1 rfl,
   (load_notFound_vs_corrupt corruptStore "bad1").2.1 (by simp [corruptStore])⟩

/-- Claim C6: save writes the full snapshot at the id-derived path
independently of whatever was stored there before (overwrite); the written
record's `last_updated` is the save-time clock and its `message_count`
equals the length of its `messages`. -/
theorem save_overwrites_with_snapshot (store : Store) (conversation_id : String)
    (messages : List Message) (metadata : Option Metadata) (now : String) :
    (save_conversation store conversation_id messages metadata now).1
        (conversationFilename conversation_id)
      = some (StoredFile.parsed (savedRecord conversation_id messages metadata now)) ∧
    (savedRecord conversation_id messages metadata now).last_updated = now ∧
    (savedRecord conversation_id messages metadata now).message_count
      = (savedRecord conversation_id messages metadata now).messages.length ∧
    ∀ store₂ : Store,
      (save_conversation store conversation_id messages metadata now).1
          (conversationFilename conversation_id)
        = (save_conversation store₂ conversation_id messages metadata now).1
            (conversationFilename conversation_id) := by
  refine ⟨by simp [save_conversation], rfl, rfl, fun store₂ => by simp [save_conversation]⟩

/-- Claim C7: listing silently skips corrupt records — prepending a corrupt
file changes nothing — and still returns a summary for every readable
record: the output is a permutation of the summaries of exactly the
readable files, so one corrupt record can never block listing or omit the
other conversations. -/
theorem listing_skips_corrupt_keeps_readable (files : List StoredFile) :
    list_conversations (StoredFile.corrupt :: files) = list_conversations files ∧
    (list_conversations files).Perm (files.filterMap summaryOf) ∧
    (list_conversations files).length = (files.filterMap summaryOf).length ∧
    ∀ s : Summary, s ∈ files.filterMap summaryOf → s ∈ list_conversations files := by
  refine ⟨?_, sortDesc_perm _, (sortDesc_perm _).length_eq, ?_⟩
  · simp [list_conversations, List.filterMap_cons, summaryOf]
  · intro s hs
    exact (sortDesc_perm _).mem_iff.mpr hs

/-- Example record `a1`, last updated 09:00 (spec Scenario C). -/
def recA1 : ConversationRecord :=
  { conversation_id := "a1", created_at := some "07:00"
  , last_updated := "09:00", message_count := 2
  , messages := [{ role := Role.user, content := "Hi" }
                , { role := Role.assistant, content := "Hello!" }] }

/-- Example record `b2`, last updated 10:00 (spec Scenario C). -/
def recB2 : ConversationRecord :=
  { conversation_id := "b2", created_at := some "07:30"
  , last_updated := "10:00", message_count := 2
  , messages := [{ role := Role.user, content := "Yo" }
                , { role := Role.assistant, content := "Hey!" }] }

/-- Example record `c3`, last updated 08:00 (spec Scenario C). -/
def recC3 : ConversationRecord :=
  { conversation_id := "c3", created_at := some "06:00"
  , last_updated := "08:00", message_count := 2
  , messages := [{ role := Role.user, content := "Ok" }
                , { role := Role.assistant, content := "Sure" }] }

/-- The store enumeration for Scenario C, in enumeration order a1, b2, c3. -/
def exampleFiles : List StoredFile :=
  [StoredFile.parsed recA1, StoredFile.parsed recB2, StoredFile.parsed recC3]

/-- Claim C4: the catalog listing is sorted descending by `last_updated`;
the menu shows at most 5 entries, which form a prefix of the listing, plus
the count of the remaining conversations; ties on `last_updated` keep the
store's enumeration order (the listing restricted to any one key value is
exactly the enumeration restricted to it); and on records a1/b2/c3 updated
at 09:00/10:00/08:00 the listing order is [b2, a1, c3]. -/
theorem catalog_sorted_limited_stable (files : List StoredFile) :
    List.Pairwise (fun a b : Summary => b.updated ≤ a.updated)
        (list_conversations files) ∧
    (∀ k : String,
      (list_conversations files).filter (fun t => t.updated == k)
        = (files.filterMap summaryOf).filter (fun t => t.updated == k)) ∧
    (menuShown (list_conversations files)).length ≤ 5 ∧
    menuShown (list_conversations files) ++ (list_conversations files).drop 5
      = list_conversations files ∧
    menuMore (list_conversations files)
      = (list_conversations files).length
          - (menuShown (list_conversations files)).length ∧
    list_conversations exampleFiles
      = [{ id := "b2", created := some "07:30", updated := "10:00", messages := 2 }
        , { id := "a1", created := some "07:00", updated := "09:00", messages := 2 }
        , { id := "c3", created := some "06:00", updated := "08:00", messages := 2 }] := by
  refine ⟨sortDesc_pairwise _, fun k => sortDesc_filter _ k, ?_, ?_, ?_, ?_⟩
  · simp only [menuShown, List.length_take]
    omega
  · exact List.take_append_drop 5 _
  · unfold menuMore menuShown
    split <;> (rw [List.length_take]; omega)
  · have h1 : ("08:00" : String) ≤ "10:00" := by
      rw [String.le_iff_toList_le]; decide
    have h2 : ¬ (("10:00" : String) ≤ "09:00") := by
      rw [String.le_iff_toList_le]; decide
    have h3 : ("08:00" : String) ≤ "09:00" := by
      rw [String.le_iff_toList_le]; decide
    simp [list_conversations, exampleFiles, summaryOf, sortDesc, insertDesc,
      recA1, recB2, recC3, h1, h2, h3]

/-- Witness for C7: the readable record a1 appears in the listing of the
example store even though a corrupt file could sit beside it. -/
theorem listing_skips_corrupt_witness :
    ({ id := "a1", created := some "07:00", updated := "09:00", messages := 2 } : Summary)
      ∈ list_conversations exampleFiles :=
  (listing_skips_corrupt_keeps_readable exampleFiles).2.2.2 _ (by decide)

/-- A log made of complete user/assistant pairs. -/
def isPairs : List Message → Bool
  | [] => true
  | [_] => false
  | u :: a :: rest =>
      u.role == Role.user && a.role == Role.assistant && isPairs rest

/-- Whether the last message of a log has role `user`. -/
def endsWithUser (l : List Message) : Bool :=
  match l.getLast? with
  | some m => m.role == Role.user
  | none => false

/-- Scan checking that every `assistant` message is immediately preceded by
a `user` message; `prev` is the role of the previous message, if any. -/
def assistantPrecededAux : Option Role → List Message → Bool
  | _, [] => true
  | prev, m :: rest =>
      (if m.role == Role.assistant then prev == some Role.user else true)
        && assistantPrecededAux (some m.role) rest

/-- Every `assistant` message in the log is immediately preceded by a
`user` message. -/
def assistantPreceded (l : List Message) : Bool :=
  assistantPrecededAux none l

/-- Appending one user/assistant pair preserves the pairs shape. -/
theorem isPairs_append_pair (c d : String) :
    ∀ l : List Message, isPairs l = true →
      isPairs (l ++ [{ role := Role.user, content := c }
                    , { role := Role.assistant, content := d }]) = true
  | [], _ => by simp [isPairs]
  | [_], h => by simp [isPairs] at h
  | u :: a :: rest, h => by
      simp only [isPairs, Bool.and_eq_true, beq_iff_eq] at h
      obtain ⟨⟨hu, ha⟩, hrest⟩ := h
      simp only [List.cons_append, isPairs, Bool.and_eq_true, beq_iff_eq]
      exact ⟨⟨hu, ha⟩, isPairs_append_pair c d rest hrest⟩

/-- A pairs-shaped log never ends with an unanswered user message. -/
theorem endsWithUser_of_isPairs :
    ∀ l : List Message, isPairs l = true → endsWithUser l = false
  | [], _ => rfl
  | [_], h => by simp [isPairs] at h
  | u :: a :: rest, h => by
      simp only [isPairs, Bool.and_eq_true, beq_iff_eq] at h
      obtain ⟨⟨hu, ha⟩, hrest⟩ := h
      match rest, hrest with
      | [], _ =>
        simp [endsWithUser, List.getLast?_cons_cons, ha]
      | r :: rs, hr =>
        have ih := endsWithUser_of_isPairs (r :: rs) hr
        simpa [endsWithUser, List.getLast?_cons_cons] using ih

/-- In a pairs-shaped log every assistant message is immediately preceded by
a user message, whatever came before the log. -/
theorem assistantPrecededAux_of_isPairs :
    ∀ (l : List Message) (prev : Option Role), isPairs l = true →
      assistantPrecededAux prev l = true
  | [], _, _ => rfl
  | [_], _, h => by simp [isPairs] at h
  | u :: a :: rest, prev, h => by
      simp only [isPairs, Bool.and_eq_true, beq_iff_eq] at h
      obtain ⟨⟨hu, ha⟩, hrest⟩ := h
      have ih := assistantPrecededAux_of_isPairs rest (some Role.assistant) hrest
      simp [assistantPrecededAux, hu, ha, ih]

/-- Invariant on the store: every record that parses has a pairs-shaped
message log. -/
def StoreInv (store : Store) : Prop :=
  ∀ path r, store path = some (StoredFile.parsed r) → isPairs r.messages = true

/-- Invariant on a session: the in-memory log is pairs-shaped and the store
satisfies `StoreInv`. It holds for a fresh session (empty log) and for any
session resumed from a store it holds for. -/
def SessionInv (s : SessionState) : Prop :=
  isPairs s.messages = true ∧ StoreInv s.store

/-- States reachable by iterating chat_2.py's loop from a given state. -/
inductive Reachable : SessionState → SessionState → Prop
  | refl (s : SessionState) : Reachable s s
  | step (s t : SessionState) (raw now : String) (result : Option String) :
      Reachable s t → Reachable s (chat2Step t raw now result)

/-- One loop iteration preserves the session invariant: commands leave the
state alone, a failed turn rolls back, and a successful turn appends one
complete pair and saves that pairs-shaped log. -/
theorem chat2Step_preserves_inv (s : SessionState) (raw now : String)
    (result : Option String) (h : SessionInv s) :
    SessionInv (chat2Step s raw now result) := by
  unfold chat2Step
  cases parseCommand2 raw <;> try exact h
  unfold chat2Turn
  cases result with
  | none =>
    refine ⟨?_, h.2⟩
    show isPairs (rollbackFailedTurn (s.messages ++ [_])) = true
    rw [rollback_append_user]
    exact h.1
  | some reply =>
    have hlog : isPairs ((s.messages ++ [{ role := Role.user, content := stripString raw }])
        ++ [{ role := Role.assistant, content := reply }]) = true := by
      rw [List.append_assoc]
      exact isPairs_append_pair _ _ s.messages h.1
    refine ⟨hlog, ?_⟩
    intro path r hr
    simp only [save_conversation] at hr
    by_cases hpath : path = conversationFilename s.conversation_id
    · rw [if_pos hpath] at hr
      injection hr with h1
      injection h1 with h2
      subst h2
      exact hlog
    · rw [if_neg hpath] at hr
      exact h.2 path r hr

/-- Claim C2: in every state the session loop can reach from a state
satisfying the session invariant (a fresh session with empty log, or one
resumed from a store this system wrote), every persisted record that parses
has a message sequence that never ends with a user-role message and in
which every assistant message is immediately preceded by a user message:
save only runs after the assistant response has been appended, so the
on-disk log is always a sequence of complete user/assistant pairs. -/
theorem persisted_log_is_complete_pairs (s₀ s : SessionState)
    (h₀ : SessionInv s₀) (h : Reachable s₀ s) :
    ∀ path r, s.store path = some (StoredFile.parsed r) →
      endsWithUser r.messages = false ∧ assistantPreceded r.messages = true := by
  have hinv : SessionInv s := by
    induction h with
    | refl => exact h₀
    | step t raw now result hab ih => exact chat2Step_preserves_inv _ _ _ _ ih
  intro path r hr
  have hp := hinv.2 path r hr
  exact ⟨endsWithUser_of_isPairs _ hp, assistantPrecededAux_of_isPairs _ none hp⟩

/-- A fresh session on an empty store. -/
def sessionStart : SessionState :=
  { conversation_id := "a1b2c3d4", messages := [], metadata := none
  , store := emptyStore }

/-- The fresh session after one successful turn with input `Hi` and
completion `Hello!`. -/
def sessionAfterTurn : SessionState :=
  chat2Step sessionStart "Hi" "2024-01-01T10:00:00" (some "Hello!")

/-- Witness for C2 on the record persisted by one successful turn. -/
theorem persisted_log_is_complete_pairs_witness :
    endsWithUser [{ role := Role.user, content := "Hi" }
                 , { role := Role.assistant, content := "Hello!" }] = false ∧
    assistantPreceded [{ role := Role.user, content := "Hi" }
                      , { role := Role.assistant, content := "Hello!" }] = true :=
  persisted_log_is_complete_pairs sessionStart sessionAfterTurn
    ⟨rfl, fun _ _ hr => Option.noConfusion hr⟩
    (Reachable.step _ _ "Hi" "2024-01-01T10:00:00" (some "Hello!")
      (Reachable.refl _))
    (conversationFilename "a1b2c3d4")
    { conversation_id := "a1b2c3d4", created_at := some "2024-01-01T10:00:00"
    , last_updated := "2024-01-01T10:00:00", message_count := 2
    , messages := [{ role := Role.user, content := "Hi" }
                  , { role := Role.assistant, content := "Hello!" }] }
    (by decide)

/-- Claim C9: the rollback branch removes a message only when the log is
non-empty and its last entry has role `user`; an empty log or a log ending
in an assistant message is left unchanged; when the last entry is a user
message exactly that entry is dropped; and rollback never removes an
assistant message (their count is preserved). -/
theorem rollback_only_pops_trailing_user (l : List Message) :
    rollbackFailedTurn ([] : List Message) = [] ∧
    (∀ m : Message, l.getLast? = some m → m.role = Role.assistant →
      rollbackFailedTurn l = l) ∧
    (∀ m : Message, l.getLast? = some m → m.role = Role.user →
      rollbackFailedTurn l = l.dropLast) ∧
    (rollbackFailedTurn l).countP (fun m => m.role == Role.assistant)
      = l.countP (fun m => m.role == Role.assistant) := by
  refine ⟨rfl, ?_, ?_, ?_⟩
  · intro m hm ha
    simp [rollbackFailedTurn, hm, ha]
  · intro m hm hu
    simp [rollbackFailedTurn, hm, hu]
  · induction l using List.reverseRecOn with
    | nil => rfl
    | append_singleton xs x ih =>
      by_cases hx : x.role = Role.user
      · simp [rollbackFailedTurn, List.getLast?_concat, hx, List.dropLast_concat,
          List.countP_append]
      · simp [rollbackFailedTurn, List.getLast?_concat, hx]

/-- Witness for C9 on a log ending in an assistant message. -/
theorem rollback_only_pops_trailing_user_witness :
    rollbackFailedTurn [{ role := Role.user, content := "Hi" }
                       , { role := Role.assistant, content := "Hello!" }]
      = [{ role := Role.user, content := "Hi" }
        , { role := Role.assistant, content := "Hello!" }] :=
  (rollback_only_pops_trailing_user _).2.1
    { role := Role.assistant, content := "Hello!" } (by decide) rfl

/-- A persistent-loop session with a two-message history, used to exhibit
the behavior of the input `clear` in chat_2.py. -/
def chat2ClearState : SessionState :=
  { conversation_id := "a1b2c3d4"
  , messages := [{ role := Role.user, content := "Hi" }
                , { role := Role.assistant, content := "Hello!" }]
  , metadata := none
  , store := emptyStore }

/-- Counterexample to C8: the persistent session loop (chat_2.py) does not
recognize `clear` — the input is classified as an ordinary turn, so with a
successful completion the in-memory log grows instead of being discarded. -/
theorem clear_unrecognized_in_persistent_loop :
    parseCommand2 "clear" = Command2.turn ∧
    (chat2Step chat2ClearState "clear" "T2" (some "Hmm")).messages
      = [{ role := Role.user, content := "Hi" }
        , { role := Role.assistant, content := "Hello!" }
        , { role := Role.user, content := "clear" }
        , { role := Role.assistant, content := "Hmm" }] ∧
    (chat2Step chat2ClearState "clear" "T2" (some "Hmm")).messages
      ≠ ([] : List Message) :=
  ⟨by decide, by decide, by decide⟩

/-- Claim C8 as amended: the `clear` command is recognized only by the basic
loop (chat.py), where it discards the in-memory message log; chat.py
performs no persistence at all, so no persisted record is saved or deleted.
The persistent loop (chat_2.py) does not recognize `clear` and treats it as
an ordinary chat message. -/
theorem clear_discards_log_in_basic_loop :
    (∀ (messages : List Message) (result : Option String),
      chat1Step messages "clear" result = []) ∧
    parseCommand2 "clear" = Command2.turn := by
  constructor
  · intro messages result
    have hp : parseCommand1 "clear" = Command1.clearCmd := by decide
    simp [chat1Step, hp]
  · decide

/-- Counterexample to C10: with a non-null but empty metadata dict, the
persisted `created_at` is the current time, not metadata's (absent, hence
null) `created_at` entry — Python's truthiness test treats an empty dict
exactly like `None`. -/
theorem created_at_empty_dict_counterexample :
    createdAtField (some ([] : Metadata)) "2024-01-01T10:00:00"
      ≠ List.lookup "created_at" ([] : Metadata) ∧
    createdAtField (some ([] : Metadata)) "2024-01-01T10:00:00"
      = some "2024-01-01T10:00:00" ∧
    List.lookup "created_at" ([] : Metadata) = none :=
  ⟨by decide, rfl, rfl⟩

/-- Claim C10 as amended: for a non-null, non-empty metadata argument the
persisted `created_at` equals metadata's `created_at` entry — even when
that entry is absent, in which case `created_at` is written as null — and
the current time is used exactly when metadata is null or empty. -/
theorem created_at_follows_nonempty_metadata (m : Metadata) (now : String) :
    (m ≠ [] → createdAtField (some m) now = List.lookup "created_at" m) ∧
    createdAtField none now = some now ∧
    createdAtField (some ([] : Metadata)) now = some now := by
  refine ⟨?_, rfl, rfl⟩
  intro hm
  match m, hm with
  | p :: ps, _ => rfl

/-- Witness for the amended C10 at a concrete non-empty metadata dict. -/
theorem created_at_follows_nonempty_metadata_witness :
    createdAtField (some [("created_at", "2024-01-01T09:00:00")]) "T"
      = List.lookup "created_at" [("created_at", "2024-01-01T09:00:00")] :=
  (created_at_follows_nonempty_metadata _ "T").1 (by decide)
